import Mathlib

/-!
Verification development for the photo-frame image processor
(`src/process_images.py`, class `PhotoFrameProcessor`).

The Layout Engine and the Batch Pipeline are shallowly embedded.  Images
are tracked by their geometry (width, height): every claim under scrutiny
concerns dimensions, filenames, counters and directory contents, never
pixel values.  The imaging-library primitives (`ImageOps.fit`, `resize`,
`GaussianBlur`, `paste`, `copy`) are modelled by their documented effect
on geometry.  Python real-valued scale factors followed by `int(...)`
truncation are modelled by exact rational arithmetic, i.e. `Nat` floor
division, since all quantities involved are nonnegative.
-/

set_option autoImplicit false

namespace PhotoFrame

/-- Decoded image buffer, tracked by its geometry only. -/
structure Img where
  width : Nat
  height : Nat
deriving DecidableEq, Repr

/-- Configuration values read once at startup (`PhotoFrameProcessor.__init__`).
`maxInputDimension` is an `Int` because the config file may hold a
nonpositive value, which disables the input-size cap. -/
structure Config where
  screenWidth : Nat
  screenHeight : Nat
  blurRadius : Nat
  maxInputDimension : Int
deriving DecidableEq, Repr

/-- Target canvas, `self.output_size = (self.screen_width, self.screen_height)`. -/
def outputSize (cfg : Config) : Nat × Nat :=
  (cfg.screenWidth, cfg.screenHeight)

/-- Geometry of `PIL.Image.resize`: the result has exactly the requested size. -/
def resize (_img : Img) (size : Nat × Nat) : Img :=
  ⟨size.1, size.2⟩

/-- Geometry of `PIL.ImageOps.fit`: scale-to-cover then centered crop, so the
result has exactly the requested size. -/
def fit (_img : Img) (size : Nat × Nat) : Img :=
  ⟨size.1, size.2⟩

/-- Geometry of `PIL.ImageFilter.GaussianBlur`: blurring preserves dimensions. -/
def gaussianBlur (_radius : Nat) (img : Img) : Img :=
  img

/-- Geometry of `Image.copy`: dimensions are preserved. -/
def copy (img : Img) : Img :=
  img

/-- Geometry of `Image.paste`: pasting mutates the base image in place and
never changes its dimensions (out-of-bounds overlay parts are clipped). -/
def paste (base : Img) (_overlay : Img) (_pos : Nat × Nat) : Img :=
  base

/-- Translation of `is_landscape` (line 208): `img.width >= img.height`. -/
def is_landscape (img : Img) : Bool :=
  decide (img.width ≥ img.height)

/-- Translation of `process_landscape` (lines 212-227): `ImageOps.fit` to the
exact output size. -/
def process_landscape (cfg : Config) (img : Img) : Img :=
  fit img (outputSize cfg)

/-- Translation of the foreground-scaling block of `process_portrait`
(lines 248-258): scale to canvas height; if the derived width exceeds the
canvas width, rescale to canvas width instead.  `int(w * (H / h))` is
modelled as the exact floor `w * H / h`. -/
def portraitNewSize (cfg : Config) (img : Img) : Nat × Nat :=
  let newWidth := img.width * cfg.screenHeight / img.height
  if newWidth > cfg.screenWidth then
    (cfg.screenWidth, img.height * cfg.screenWidth / img.width)
  else
    (newWidth, cfg.screenHeight)

/-- Translation of the centering offsets of `process_portrait`
(lines 266-267): `x = (W - new_width) // 2`, `y = (H - new_height) // 2`.
The subtraction is on `Nat`; the foreground is proved never to exceed the
canvas, so this agrees with the Python integer arithmetic. -/
def portraitOffsets (cfg : Config) (img : Img) : Nat × Nat :=
  let sz := portraitNewSize cfg img
  ((cfg.screenWidth - sz.1) / 2, (cfg.screenHeight - sz.2) / 2)

/-- Translation of `process_portrait` (lines 229-271): blurred backdrop
fill-cropped to the canvas, foreground scaled per `portraitNewSize`, pasted
centered per `portraitOffsets`. -/
def process_portrait (cfg : Config) (img : Img) : Img :=
  let blurred_bg := fit (gaussianBlur cfg.blurRadius (copy img)) (outputSize cfg)
  let scaled_original := resize img (portraitNewSize cfg img)
  let canvas := copy blurred_bg
  paste canvas scaled_original (portraitOffsets cfg img)

/-- The two layout strategies of the engine. -/
inductive Strategy where
  | fillCrop
  | blurredBackdrop
deriving DecidableEq, Repr

/-- Translation of the dispatch in `process_image` (lines 321-324), abstracted
to the strategy it selects. -/
def chooseStrategy (img : Img) : Strategy :=
  if is_landscape img then Strategy.fillCrop else Strategy.blurredBackdrop

/-- Translation of the dispatch in `process_image` (lines 321-324). -/
def dispatchLayout (cfg : Config) (img : Img) : Img :=
  if is_landscape img then process_landscape cfg img else process_portrait cfg img

/-- Translation of `_downsample_if_needed` (lines 169-206).  A nonpositive
cap disables downsampling; an image within the cap is returned unchanged;
otherwise the larger side is scaled to the cap and the other side follows
by exact floor arithmetic (`int(x * (cap / d))` modelled as `x * cap / d`). -/
def downsample_if_needed (cfg : Config) (img : Img) : Img :=
  if cfg.maxInputDimension ≤ 0 then img
  else
    let maxDim := max img.width img.height
    if (maxDim : Int) ≤ cfg.maxInputDimension then img
    else
      let cap := cfg.maxInputDimension.toNat
      if img.width > img.height then
        resize img (cap, img.height * cap / img.width)
      else
        resize img (img.width * cap / img.height, cap)

/-- Filename split as Python `pathlib` does: `stem` plus `ext` (the suffix,
leading dot included, possibly empty). -/
structure FileName where
  stem : String
  ext : String
deriving DecidableEq, Repr

/-- Directory-listing entry as seen by `iterdir()`: name plus whether the
entry is a regular file. -/
structure DirEntry where
  stem : String
  ext : String
  isFile : Bool
deriving DecidableEq, Repr

/-- Raw-directory entry together with the filesystem facts consulted while
processing it.  `isFile` is the `is_file()` answer at discovery time;
`onDisk`, `isRegular`, `readable`, `size` and `validImage` are the answers
at validation time (`_validate_image_file`); `decodes` records whether the
later open/convert/layout/save pipeline raises no exception. -/
structure Entry where
  stem : String
  ext : String
  isFile : Bool
  onDisk : Bool
  isRegular : Bool
  readable : Bool
  size : Nat
  validImage : Bool
  decodes : Bool
deriving DecidableEq, Repr

/-- Lowercasing of a string, character by character, modelling Python
`str.lower()` as applied to filename suffixes.  Defined through the
character list so that it evaluates inside the kernel. -/
def lowerString (s : String) : String :=
  ⟨s.data.map Char.toLower⟩

/-- Translation of the extension whitelist used both by `process_all`
(line 412) and by `cleanup_orphaned_photos` (line 376). -/
def imageExtensions : List String :=
  [".jpg", ".jpeg", ".png", ".bmp", ".gif", ".tiff", ".heic"]

/-- Translation of input discovery (`process_all`, lines 415-418): regular
files whose lowercased suffix is whitelisted. -/
def discoverImages (rawDir : List Entry) : List Entry :=
  rawDir.filter fun e => e.isFile && decide (lowerString e.ext ∈ imageExtensions)

/-- Translation of the processed-set computation (`process_all`, line 428):
stems of ALL regular files in the output directory, with no filtering by
extension or content. -/
def processedStems (outDir : List DirEntry) : List String :=
  (outDir.filter fun o => o.isFile).map fun o => o.stem

/-- Translation of the raw-stem set of `cleanup_orphaned_photos`
(lines 379-382), which applies the same regular-file and extension filter
as input discovery. -/
def rawStems (rawDir : List Entry) : List String :=
  (discoverImages rawDir).map fun e => e.stem

/-- Translation of `_validate_image_file` (lines 128-167): existence,
regular-file, readability, nonzero-size and image-integrity checks, in
that order, returning `(is_valid, error_message)`. -/
def validateImageFile (e : Entry) : Bool × Option String :=
  if !e.onDisk then (false, some "File does not exist")
  else if !e.isRegular then (false, some "Path is not a file")
  else if !e.readable then (false, some "File is not readable")
  else if e.size == 0 then (false, some "File is empty (0 bytes)")
  else if !e.validImage then (false, some "Invalid or corrupted image file")
  else (true, none)

/-- Translation of the output-name computation of `process_image`
(lines 327-331): the raw name, with the suffix rewritten to `.jpg` when its
lowercasing is one of `.png`, `.bmp`, `.gif`, `.tiff`. -/
def outputFileName (f : FileName) : FileName :=
  if lowerString f.ext ∈ [".png", ".bmp", ".gif", ".tiff"] then
    ⟨f.stem, ".jpg"⟩
  else
    f

/-- Translation of the success/failure outcome of `process_image`
(lines 273-368): `True` exactly when validation passes and the subsequent
open/process/save pipeline raises no exception; any exception is caught
and turned into `False`. -/
def processImage (e : Entry) : Bool :=
  (validateImageFile e).fst && e.decodes

/-- Per-run statistics plus the list of output files written, in order. -/
structure RunResult where
  success : Nat
  skip : Nat
  fail : Nat
  writes : List FileName
deriving DecidableEq, Repr

/-- Translation of one iteration of the `process_all` loop (lines 441-459):
skip when the stem is in the precomputed processed set (which is never
updated during the run); otherwise process, recording a write on success
and a failure otherwise. -/
def processAllStep (processed : List String) (r : RunResult) (e : Entry) : RunResult :=
  if e.stem ∈ processed then
    { r with skip := r.skip + 1 }
  else if processImage e then
    { r with success := r.success + 1,
             writes := r.writes ++ [outputFileName ⟨e.stem, e.ext⟩] }
  else
    { r with fail := r.fail + 1 }

/-- Translation of the batch loop of `process_all` (lines 405-459):
discover the images, compute the processed set once, and fold the per-file
step over the discovered files. -/
def process_all (rawDir : List Entry) (outDir : List DirEntry) : RunResult :=
  (discoverImages rawDir).foldl (processAllStep (processedStems outDir)) ⟨0, 0, 0, []⟩

/-- Translation of `cleanup_orphaned_photos` (lines 370-403): the output
listing after cleanup.  An entry is removed exactly when it is a regular
file, its stem matches no raw image stem, and its `unlink()` succeeded
(`deleteOk`); a failed deletion is logged and the loop continues, so other
entries are unaffected. -/
def cleanup_orphaned_photos (rawDir : List Entry) (outDir : List DirEntry)
    (deleteOk : DirEntry → Bool) : List DirEntry :=
  outDir.filter fun o =>
    !(o.isFile && !decide (o.stem ∈ rawStems rawDir) && deleteOk o)

/-- Deletions attempted by `cleanup_orphaned_photos` (lines 391-398): every
regular output file whose stem matches no raw image stem reaches the
`unlink()` call, independently of whether other deletions fail. -/
def attemptedDeletions (rawDir : List Entry) (outDir : List DirEntry) : List DirEntry :=
  outDir.filter fun o => o.isFile && !decide (o.stem ∈ rawStems rawDir)

/-- Filesystem effect of the writes of a run: each saved output becomes a
regular file in the output directory. -/
def writeEntries (ws : List FileName) : List DirEntry :=
  ws.map fun w => ⟨w.stem, w.ext, true⟩

/-- Output directory as left by one full `process_all` run (batch loop then
orphan cleanup, lines 405-491) starting from listing `outDir`. -/
def outDirAfterRun (rawDir : List Entry) (outDir : List DirEntry)
    (deleteOk : DirEntry → Bool) : List DirEntry :=
  cleanup_orphaned_photos rawDir (outDir ++ writeEntries (process_all rawDir outDir).writes) deleteOk

/-! ## General lemmas about the embedding -/

theorem outputFileName_stem (f : FileName) : (outputFileName f).stem = f.stem := by
  unfold outputFileName
  split <;> rfl

theorem mem_processedStems {s : String} {outDir : List DirEntry} :
    s ∈ processedStems outDir ↔ ∃ o ∈ outDir, o.isFile = true ∧ o.stem = s := by
  simp [processedStems, List.mem_map, List.mem_filter, and_assoc]

theorem mem_rawStems {s : String} {rawDir : List Entry} :
    s ∈ rawStems rawDir ↔ ∃ e ∈ discoverImages rawDir, e.stem = s := by
  simp [rawStems, List.mem_map]

theorem discoverImages_stem_mem_rawStems {rawDir : List Entry} {e : Entry}
    (he : e ∈ discoverImages rawDir) : e.stem ∈ rawStems rawDir :=
  mem_rawStems.mpr ⟨e, he, rfl⟩

/-! ## C1 and C2: layout-engine geometry and dispatch -/

/-- C1: for every decoded input image and a fixed canvas size, the composite
returned by the layout step — `process_landscape` for landscape inputs,
`process_portrait` for portrait inputs — has dimensions exactly equal to the
canvas size. -/
theorem layout_output_is_canvas_size (cfg : Config) (img : Img) :
    (process_landscape cfg img).width = cfg.screenWidth ∧
    (process_landscape cfg img).height = cfg.screenHeight ∧
    (process_portrait cfg img).width = cfg.screenWidth ∧
    (process_portrait cfg img).height = cfg.screenHeight :=
  ⟨rfl, rfl, rfl, rfl⟩

/-- C2: the dispatch selects the fill-crop strategy iff `width ≥ height` and
the blurred-backdrop strategy iff `width < height`; square inputs get
fill-crop. -/
theorem dispatch_strategy_by_orientation (img : Img) :
    (chooseStrategy img = Strategy.fillCrop ↔ img.width ≥ img.height) ∧
    (chooseStrategy img = Strategy.blurredBackdrop ↔ img.width < img.height) ∧
    (img.width ≥ img.height → ∀ cfg, dispatchLayout cfg img = process_landscape cfg img) ∧
    (img.width < img.height → ∀ cfg, dispatchLayout cfg img = process_portrait cfg img) ∧
    (img.width = img.height → chooseStrategy img = Strategy.fillCrop) := by
  by_cases h : img.width ≥ img.height
  · refine ⟨by simp [chooseStrategy, is_landscape, h], ?_, ?_, ?_, ?_⟩
    · simp [chooseStrategy, is_landscape, h]
    · intro _ cfg
      simp [dispatchLayout, is_landscape, h]
    · intro hlt
      omega
    · intro _
      simp [chooseStrategy, is_landscape, h]
  · refine ⟨?_, ?_, ?_, ?_, ?_⟩
    · simp [chooseStrategy, is_landscape, h]
    · simp [chooseStrategy, is_landscape, h]
      omega
    · intro hge
      omega
    · intro _ cfg
      simp [dispatchLayout, is_landscape, h]
    · intro heq
      omega

/-- Witness for C2 at the square input 500×500 and canvas 1920×1080. -/
theorem dispatch_strategy_by_orientation_witness :
    chooseStrategy ⟨500, 500⟩ = Strategy.fillCrop ∧
    dispatchLayout ⟨1920, 1080, 8, 4000⟩ ⟨500, 500⟩ =
      process_landscape ⟨1920, 1080, 8, 4000⟩ ⟨500, 500⟩ :=
  ⟨(dispatch_strategy_by_orientation ⟨500, 500⟩).2.2.2.2 rfl,
   (dispatch_strategy_by_orientation ⟨500, 500⟩).2.2.1 (by decide) ⟨1920, 1080, 8, 4000⟩⟩

/-! ## C3: portrait foreground scaling and centering -/

/-- C3: for a portrait input the foreground is scaled height-first, switching
to width-fit only when the derived width exceeds the canvas width; the
scaled foreground never exceeds the canvas in either axis, at least one
axis matches the canvas exactly, and the paste offsets are the centered
floor-division offsets. -/
theorem portrait_foreground_spec (cfg : Config) (img : Img)
    (hp : img.width < img.height) :
    (img.width * cfg.screenHeight / img.height ≤ cfg.screenWidth →
      portraitNewSize cfg img = (img.width * cfg.screenHeight / img.height, cfg.screenHeight)) ∧
    (cfg.screenWidth < img.width * cfg.screenHeight / img.height →
      portraitNewSize cfg img = (cfg.screenWidth, img.height * cfg.screenWidth / img.width)) ∧
    (portraitNewSize cfg img).1 ≤ cfg.screenWidth ∧
    (portraitNewSize cfg img).2 ≤ cfg.screenHeight ∧
    ((portraitNewSize cfg img).1 = cfg.screenWidth ∨
      (portraitNewSize cfg img).2 = cfg.screenHeight) ∧
    portraitOffsets cfg img =
      ((cfg.screenWidth - (portraitNewSize cfg img).1) / 2,
       (cfg.screenHeight - (portraitNewSize cfg img).2) / 2) := by
  have hh_pos : 0 < img.height := lt_of_le_of_lt (Nat.zero_le _) hp
  by_cases hb : img.width * cfg.screenHeight / img.height > cfg.screenWidth
  · -- width-fit branch
    have hsz : portraitNewSize cfg img =
        (cfg.screenWidth, img.height * cfg.screenWidth / img.width) := by
      simp [portraitNewSize, hb]
    -- derive the key multiplicative bound from the branch condition
    have h1 : (cfg.screenWidth + 1) * img.height ≤ img.width * cfg.screenHeight :=
      (Nat.le_div_iff_mul_le hh_pos).mp hb
    have w_pos : 0 < img.width := by
      rcases Nat.eq_zero_or_pos img.width with h0 | h0
      · rw [h0] at h1
        simp at h1
        omega
      · exact h0
    have hfit : img.height * cfg.screenWidth / img.width ≤ cfg.screenHeight := by
      have key : img.height * cfg.screenWidth < (cfg.screenHeight + 1) * img.width := by
        have c1 : (cfg.screenWidth + 1) * img.height =
            cfg.screenWidth * img.height + img.height := by ring
        have c2 : img.height * cfg.screenWidth = cfg.screenWidth * img.height := by ring
        have c3 : (cfg.screenHeight + 1) * img.width =
            img.width * cfg.screenHeight + img.width := by ring
        rw [c2, c3]
        omega
      have := (Nat.div_lt_iff_lt_mul w_pos).mpr key
      omega
    refine ⟨?_, ?_, ?_, ?_, ?_, rfl⟩
    · intro hle
      omega
    · intro _
      exact hsz
    · rw [hsz]
    · rw [hsz]
      exact hfit
    · left
      rw [hsz]
  · -- height-fit branch
    have hsz : portraitNewSize cfg img =
        (img.width * cfg.screenHeight / img.height, cfg.screenHeight) := by
      simp [portraitNewSize, hb]
    refine ⟨?_, ?_, ?_, ?_, ?_, rfl⟩
    · intro _
      exact hsz
    · intro hlt
      omega
    · rw [hsz]
      omega
    · rw [hsz]
    · right
      rw [hsz]

/-- Witness for C3: canvas 1920×1080, portrait source 1000×2000; the
foreground is 540×1080 placed at (690, 0), the height-fit branch being
taken since 540 ≤ 1920. -/
theorem portrait_foreground_spec_witness :
    portraitNewSize ⟨1920, 1080, 8, 4000⟩ ⟨1000, 2000⟩ = (540, 1080) ∧
    portraitOffsets ⟨1920, 1080, 8, 4000⟩ ⟨1000, 2000⟩ = (690, 0) ∧
    ((1000 * 1080 / 2000 ≤ 1920 →
      portraitNewSize ⟨1920, 1080, 8, 4000⟩ ⟨1000, 2000⟩ = (1000 * 1080 / 2000, 1080)) ∧
    (1920 < 1000 * 1080 / 2000 →
      portraitNewSize ⟨1920, 1080, 8, 4000⟩ ⟨1000, 2000⟩ = (1920, 2000 * 1920 / 1000)) ∧
    (portraitNewSize ⟨1920, 1080, 8, 4000⟩ ⟨1000, 2000⟩).1 ≤ 1920 ∧
    (portraitNewSize ⟨1920, 1080, 8, 4000⟩ ⟨1000, 2000⟩).2 ≤ 1080 ∧
    ((portraitNewSize ⟨1920, 1080, 8, 4000⟩ ⟨1000, 2000⟩).1 = 1920 ∨
      (portraitNewSize ⟨1920, 1080, 8, 4000⟩ ⟨1000, 2000⟩).2 = 1080) ∧
    portraitOffsets ⟨1920, 1080, 8, 4000⟩ ⟨1000, 2000⟩ =
      ((1920 - (portraitNewSize ⟨1920, 1080, 8, 4000⟩ ⟨1000, 2000⟩).1) / 2,
       (1080 - (portraitNewSize ⟨1920, 1080, 8, 4000⟩ ⟨1000, 2000⟩).2) / 2)) :=
  ⟨by decide, by decide,
   portrait_foreground_spec ⟨1920, 1080, 8, 4000⟩ ⟨1000, 2000⟩ (by decide)⟩

/-! ## C8: input-size cap (`_downsample_if_needed`) -/

/-- C8: with a positive cap, an image whose larger side exceeds the cap is
downsampled so that its larger side equals the cap and the other side is
the exact floor of the aspect-preserving value; with a nonpositive cap, or
when neither dimension exceeds the cap, the image is returned unchanged. -/
theorem downsample_spec (cfg : Config) (img : Img) :
    (cfg.maxInputDimension ≤ 0 → downsample_if_needed cfg img = img) ∧
    (0 < cfg.maxInputDimension →
      (max img.width img.height : Int) ≤ cfg.maxInputDimension →
      downsample_if_needed cfg img = img) ∧
    (0 < cfg.maxInputDimension →
      cfg.maxInputDimension < (max img.width img.height : Int) →
      max (downsample_if_needed cfg img).width (downsample_if_needed cfg img).height =
          cfg.maxInputDimension.toNat ∧
      (img.height < img.width →
        downsample_if_needed cfg img =
          ⟨cfg.maxInputDimension.toNat,
           img.height * cfg.maxInputDimension.toNat / img.width⟩ ∧
        (downsample_if_needed cfg img).height * img.width ≤
          img.height * cfg.maxInputDimension.toNat ∧
        img.height * cfg.maxInputDimension.toNat <
          ((downsample_if_needed cfg img).height + 1) * img.width) ∧
      (img.width ≤ img.height →
        downsample_if_needed cfg img =
          ⟨img.width * cfg.maxInputDimension.toNat / img.height,
           cfg.maxInputDimension.toNat⟩ ∧
        (downsample_if_needed cfg img).width * img.height ≤
          img.width * cfg.maxInputDimension.toNat ∧
        img.width * cfg.maxInputDimension.toNat <
          ((downsample_if_needed cfg img).width + 1) * img.height)) := by
  by_cases hc : cfg.maxInputDimension ≤ 0
  · refine ⟨fun _ => by simp [downsample_if_needed, hc], ?_, ?_⟩ <;> intro h0 <;> omega
  · push_neg at hc
    refine ⟨fun h0 => absurd h0 (by omega), ?_, ?_⟩
    · intro _ hin
      simp [downsample_if_needed, not_le.mpr hc, hin]
    · intro _ hout
      have hcap : cfg.maxInputDimension.toNat < max img.width img.height := by omega
      have hcap_pos : 0 < cfg.maxInputDimension.toNat := by omega
      have hnotin : ¬ ((max img.width img.height : Int) ≤ cfg.maxInputDimension) := by omega
      by_cases hw : img.width > img.height
      · have w_pos : 0 < img.width := by omega
        have hd : downsample_if_needed cfg img =
            ⟨cfg.maxInputDimension.toNat,
             img.height * cfg.maxInputDimension.toNat / img.width⟩ := by
          simp [downsample_if_needed, hnotin, hw, resize]
          omega
        have hle : img.height * cfg.maxInputDimension.toNat / img.width ≤
            cfg.maxInputDimension.toNat := by
          calc img.height * cfg.maxInputDimension.toNat / img.width
              ≤ img.width * cfg.maxInputDimension.toNat / img.width :=
                Nat.div_le_div_right (Nat.mul_le_mul_right _ (le_of_lt hw))
            _ = cfg.maxInputDimension.toNat := Nat.mul_div_cancel_left _ w_pos
        have hdm := Nat.div_add_mod (img.height * cfg.maxInputDimension.toNat) img.width
        have hmod := Nat.mod_lt (img.height * cfg.maxInputDimension.toNat) w_pos
        refine ⟨?_, fun _ => ⟨hd, ?_, ?_⟩, fun hle2 => absurd hle2 (by omega)⟩
        · rw [hd]
          simpa using hle
        · rw [hd]
          exact Nat.div_mul_le_self _ _
        · rw [hd]
          have hexp : (img.height * cfg.maxInputDimension.toNat / img.width + 1) * img.width =
              img.width * (img.height * cfg.maxInputDimension.toNat / img.width) +
                img.width := by ring
          rw [hexp]
          omega
      · push_neg at hw
        have h_pos : 0 < img.height := by omega
        have hd : downsample_if_needed cfg img =
            ⟨img.width * cfg.maxInputDimension.toNat / img.height,
             cfg.maxInputDimension.toNat⟩ := by
          simp [downsample_if_needed, hnotin, not_lt.mpr hw, resize]
          omega
        have hle : img.width * cfg.maxInputDimension.toNat / img.height ≤
            cfg.maxInputDimension.toNat := by
          calc img.width * cfg.maxInputDimension.toNat / img.height
              ≤ img.height * cfg.maxInputDimension.toNat / img.height :=
                Nat.div_le_div_right (Nat.mul_le_mul_right _ hw)
            _ = cfg.maxInputDimension.toNat := Nat.mul_div_cancel_left _ h_pos
        have hdm := Nat.div_add_mod (img.width * cfg.maxInputDimension.toNat) img.height
        have hmod := Nat.mod_lt (img.width * cfg.maxInputDimension.toNat) h_pos
        refine ⟨?_, fun hgt => absurd hgt (by omega), fun _ => ⟨hd, ?_, ?_⟩⟩
        · rw [hd]
          simpa using hle
        · rw [hd]
          exact Nat.div_mul_le_self _ _
        · rw [hd]
          have hexp : (img.width * cfg.maxInputDimension.toNat / img.height + 1) * img.height =
              img.height * (img.width * cfg.maxInputDimension.toNat / img.height) +
                img.height := by ring
          rw [hexp]
          omega

/-- Witness for C8: cap 100, source 300×200 downsamples to 100×66; cap -1
disables; a 300×200 source is unchanged under cap 4000. -/
theorem downsample_spec_witness :
    (0 : Int) < 100 ∧ (100 : Int) < (max 300 200 : Nat) ∧
    downsample_if_needed ⟨1920, 1080, 8, 100⟩ ⟨300, 200⟩ = ⟨100, 66⟩ ∧
    downsample_if_needed ⟨1920, 1080, 8, -1⟩ ⟨300, 200⟩ = ⟨300, 200⟩ ∧
    max (downsample_if_needed ⟨1920, 1080, 8, 100⟩ ⟨300, 200⟩).width
        (downsample_if_needed ⟨1920, 1080, 8, 100⟩ ⟨300, 200⟩).height = (100 : Int).toNat := by
  refine ⟨by decide, by norm_num, by decide, ?_, ?_⟩
  · exact (downsample_spec ⟨1920, 1080, 8, -1⟩ ⟨300, 200⟩).1 (by decide)
  · exact ((downsample_spec ⟨1920, 1080, 8, 100⟩ ⟨300, 200⟩).2.2 (by decide) (by norm_num)).1

/-! ## Batch-loop decomposition -/

/-- Folding the per-file step decomposes the run into skipped, succeeded and
failed sublists of the discovered files; writes are the output names of the
succeeded files, in order. -/
theorem foldl_processAllStep (P : List String) (l : List Entry) (r : RunResult) :
    l.foldl (processAllStep P) r =
      { success := r.success +
          (l.filter fun e => !decide (e.stem ∈ P) && processImage e).length,
        skip := r.skip + (l.filter fun e => decide (e.stem ∈ P)).length,
        fail := r.fail +
          (l.filter fun e => !decide (e.stem ∈ P) && !processImage e).length,
        writes := r.writes ++
          ((l.filter fun e => !decide (e.stem ∈ P) && processImage e).map
            fun e => outputFileName ⟨e.stem, e.ext⟩) } := by
  induction l generalizing r with
  | nil => simp
  | cons e l ih =>
    rw [List.foldl_cons, ih]
    by_cases hs : e.stem ∈ P
    · simp [processAllStep, hs, Nat.add_assoc, Nat.add_comm]
    · by_cases hp : processImage e
      · simp [processAllStep, hs, hp, Nat.add_assoc, Nat.add_comm, List.append_assoc]
      · simp [processAllStep, hs, hp, Nat.add_assoc, Nat.add_comm]

/-- Closed form for a whole `process_all` run. -/
theorem process_all_eq (rawDir : List Entry) (outDir : List DirEntry) :
    process_all rawDir outDir =
      { success := ((discoverImages rawDir).filter fun e =>
          !decide (e.stem ∈ processedStems outDir) && processImage e).length,
        skip := ((discoverImages rawDir).filter fun e =>
          decide (e.stem ∈ processedStems outDir)).length,
        fail := ((discoverImages rawDir).filter fun e =>
          !decide (e.stem ∈ processedStems outDir) && !processImage e).length,
        writes := ((discoverImages rawDir).filter fun e =>
          !decide (e.stem ∈ processedStems outDir) && processImage e).map
            fun e => outputFileName ⟨e.stem, e.ext⟩ } := by
  unfold process_all
  rw [foldl_processAllStep]
  simp

/-- Splitting a filtered count along a boolean condition. -/
theorem length_filter_or {α : Type} (l : List α) (p q : α → Bool) :
    (l.filter fun a => p a || q a).length =
      (l.filter p).length + (l.filter fun a => !p a && q a).length := by
  induction l with
  | nil => simp
  | cons a l ih =>
    by_cases hp : p a
    · simp [hp, ih]
      omega
    · by_cases hq : q a
      · simp [hp, hq, ih]
        omega
      · simp [hp, hq, ih]

/-! ## C4: output filename normalization -/

/-- C4 counterexample: a `.heic` input is a recognized non-JPEG format, yet
its persisted output name keeps the `.heic` extension instead of being
rewritten to `.jpg` — the rewrite list is only `.png`, `.bmp`, `.gif`,
`.tiff`. -/
theorem heic_extension_not_rewritten :
    ".heic" ∈ imageExtensions ∧
    outputFileName ⟨"photo", ".heic"⟩ = ⟨"photo", ".heic"⟩ ∧
    outputFileName ⟨"photo", ".heic"⟩ ≠ ⟨"photo", ".jpg"⟩ := by
  refine ⟨by decide, by decide, by decide⟩

/-- C4 amended: the output filename extension is rewritten to `.jpg` exactly
when the lowercased input extension is one of `.png`, `.bmp`, `.gif`,
`.tiff`; any other extension — `.heic` included — is kept unchanged; the
stem is always preserved. -/
theorem output_extension_rewrite (f : FileName) :
    (lowerString f.ext ∈ [".png", ".bmp", ".gif", ".tiff"] →
      outputFileName f = ⟨f.stem, ".jpg"⟩) ∧
    (lowerString f.ext ∉ [".png", ".bmp", ".gif", ".tiff"] →
      outputFileName f = f) ∧
    (outputFileName f).stem = f.stem := by
  refine ⟨?_, ?_, outputFileName_stem f⟩
  · intro hmem
    simp [outputFileName, hmem]
  · intro hmem
    simp [outputFileName, hmem]

/-- Witness for the amended C4: an uppercase `.PNG` input is rewritten to
`.jpg` with its stem kept, a `.heic` input is kept as is. -/
theorem output_extension_rewrite_witness :
    lowerString ".PNG" ∈ [".png", ".bmp", ".gif", ".tiff"] ∧
    outputFileName ⟨"sunset", ".PNG"⟩ = ⟨"sunset", ".jpg"⟩ ∧
    outputFileName ⟨"trip", ".heic"⟩ = ⟨"trip", ".heic"⟩ :=
  ⟨by decide,
   (output_extension_rewrite ⟨"sunset", ".PNG"⟩).1 (by decide),
   (output_extension_rewrite ⟨"trip", ".heic"⟩).2.1 (by decide)⟩

/-! ## C5: skip decision and the at-most-once write claim -/

/-- C5 counterexample: two raw inputs `a.jpg` and `a.png` sharing the stem
`a`, with an empty output directory, are both processed in the same run and
produce two output writes (both named `a.jpg`), because the processed set
is computed once at batch start and never updated during the run. -/
theorem duplicate_stem_two_writes :
    (process_all
      [⟨"a", ".jpg", true, true, true, true, 5, true, true⟩,
       ⟨"a", ".png", true, true, true, true, 5, true, true⟩] []).writes =
      [⟨"a", ".jpg"⟩, ⟨"a", ".jpg"⟩] ∧
    ((process_all
      [⟨"a", ".jpg", true, true, true, true, 5, true, true⟩,
       ⟨"a", ".png", true, true, true, true, 5, true, true⟩] []).writes.filter
        fun w => w.stem == "a").length = 2 := by
  decide

/-- C5 amended: the skip count is exactly the number of discovered inputs
whose stem lies in the processed set computed at batch start, and every
output write stems from a discovered input whose stem was NOT in that
precomputed set; since the set is not updated during the run, at-most-once
per stem is guaranteed only relative to the set at batch start, not within
a run for raw inputs sharing a stem. -/
theorem skip_prevents_write (rawDir : List Entry) (outDir : List DirEntry) :
    (process_all rawDir outDir).skip =
      ((discoverImages rawDir).filter fun e =>
        decide (e.stem ∈ processedStems outDir)).length ∧
    ∀ w ∈ (process_all rawDir outDir).writes,
      w.stem ∉ processedStems outDir ∧
      ∃ e ∈ discoverImages rawDir,
        e.stem ∉ processedStems outDir ∧ processImage e = true ∧
        w = outputFileName ⟨e.stem, e.ext⟩ := by
  rw [process_all_eq]
  refine ⟨rfl, ?_⟩
  intro w hw
  simp only [List.mem_map, List.mem_filter, Bool.and_eq_true, Bool.not_eq_true',
    decide_eq_false_iff_not] at hw
  obtain ⟨e, ⟨he, hnp, hok⟩, rfl⟩ := hw
  refine ⟨?_, e, he, hnp, hok, rfl⟩
  rw [outputFileName_stem]
  exact hnp

/-- Witness for the amended C5: input `b.jpg` with an empty output directory
produces the single write `b.jpg`, whose stem was not in the processed set. -/
theorem skip_prevents_write_witness :
    (FileName.mk "b" ".jpg") ∈
      (process_all [⟨"b", ".jpg", true, true, true, true, 5, true, true⟩] []).writes ∧
    ((FileName.mk "b" ".jpg").stem ∉ processedStems ([] : List DirEntry) ∧
      ∃ e ∈ discoverImages [⟨"b", ".jpg", true, true, true, true, 5, true, true⟩],
        e.stem ∉ processedStems ([] : List DirEntry) ∧ processImage e = true ∧
        FileName.mk "b" ".jpg" = outputFileName ⟨e.stem, e.ext⟩) :=
  ⟨by decide,
   (skip_prevents_write [⟨"b", ".jpg", true, true, true, true, 5, true, true⟩] []).2
     ⟨"b", ".jpg"⟩ (by decide)⟩

/-! ## C7: validation failures are isolated -/

/-- C7: an input failing any validation check (nonexistent, not a regular
file, unreadable, zero-sized, or not a structurally valid image) makes
`process_image` return failure; in the batch loop this increments only the
failure counter, creates no output write, and the fold continues over the
remaining files from that state. -/
theorem validation_failure_isolated (e : Entry) (P : List String) (r : RunResult)
    (rest : List Entry)
    (hv : e.onDisk = false ∨ e.isRegular = false ∨ e.readable = false ∨
      e.size = 0 ∨ e.validImage = false)
    (hs : e.stem ∉ P) :
    (validateImageFile e).fst = false ∧
    processImage e = false ∧
    processAllStep P r e = { r with fail := r.fail + 1 } ∧
    (processAllStep P r e).writes = r.writes ∧
    (e :: rest).foldl (processAllStep P) r =
      rest.foldl (processAllStep P) { r with fail := r.fail + 1 } := by
  have hval : (validateImageFile e).fst = false := by
    unfold validateImageFile
    split_ifs with h1 h2 h3 h4 h5 <;> simp_all
  have hpi : processImage e = false := by
    simp [processImage, hval]
  have hstep : processAllStep P r e = { r with fail := r.fail + 1 } := by
    simp [processAllStep, hs, hpi]
  refine ⟨hval, hpi, hstep, by rw [hstep], ?_⟩
  rw [List.foldl_cons, hstep]

/-- Witness for C7: a zero-sized `bad.jpg` fails, is counted as a failure
with no write, and the following good file `g.jpg` is still processed. -/
theorem validation_failure_isolated_witness :
    ((Entry.mk "bad" ".jpg" true true true true 0 true true).size = 0) ∧
    ((validateImageFile ⟨"bad", ".jpg", true, true, true, true, 0, true, true⟩).fst = false ∧
     processImage ⟨"bad", ".jpg", true, true, true, true, 0, true, true⟩ = false ∧
     processAllStep [] ⟨0, 0, 0, []⟩ ⟨"bad", ".jpg", true, true, true, true, 0, true, true⟩ =
       ⟨0, 0, 1, []⟩ ∧
     (processAllStep [] ⟨0, 0, 0, []⟩
        ⟨"bad", ".jpg", true, true, true, true, 0, true, true⟩).writes = [] ∧
     ([⟨"bad", ".jpg", true, true, true, true, 0, true, true⟩,
       ⟨"g", ".jpg", true, true, true, true, 7, true, true⟩] : List Entry).foldl
         (processAllStep []) ⟨0, 0, 0, []⟩ =
       ([⟨"g", ".jpg", true, true, true, true, 7, true, true⟩] : List Entry).foldl
         (processAllStep []) ⟨0, 0, 1, []⟩) ∧
    ([⟨"bad", ".jpg", true, true, true, true, 0, true, true⟩,
      ⟨"g", ".jpg", true, true, true, true, 7, true, true⟩] : List Entry).foldl
        (processAllStep []) ⟨0, 0, 0, []⟩ = ⟨1, 0, 1, [⟨"g", ".jpg"⟩]⟩ :=
  ⟨rfl,
   validation_failure_isolated ⟨"bad", ".jpg", true, true, true, true, 0, true, true⟩
     [] ⟨0, 0, 0, []⟩ [⟨"g", ".jpg", true, true, true, true, 7, true, true⟩]
     (Or.inr (Or.inr (Or.inr (Or.inl rfl)))) (by decide),
   by decide⟩

/-! ## C10: the processed set ignores extension and file type -/

/-- C10: the processed set consists of stems of all regular files in the
output directory, so any regular file sharing a discovered input's stem —
whatever its extension — makes that input be skipped: the run writes no
output with that stem and counts at least one skip. -/
theorem processed_set_is_untyped (rawDir : List Entry) (outDir : List DirEntry)
    (e : Entry) (o : DirEntry) (he : e ∈ discoverImages rawDir) (ho : o ∈ outDir)
    (hf : o.isFile = true) (hstem : o.stem = e.stem) :
    e.stem ∈ processedStems outDir ∧
    1 ≤ (process_all rawDir outDir).skip ∧
    ∀ w ∈ (process_all rawDir outDir).writes, w.stem ≠ e.stem := by
  have hmem : e.stem ∈ processedStems outDir := mem_processedStems.mpr ⟨o, ho, hf, hstem⟩
  refine ⟨hmem, ?_, ?_⟩
  · rw [process_all_eq]
    exact List.length_pos_of_mem (List.mem_filter.mpr ⟨he, by simp [hmem]⟩)
  · intro w hw
    rw [process_all_eq] at hw
    simp only [List.mem_map, List.mem_filter, Bool.and_eq_true, Bool.not_eq_true',
      decide_eq_false_iff_not] at hw
    obtain ⟨e', ⟨_, hnp, _⟩, rfl⟩ := hw
    rw [outputFileName_stem]
    intro hcontra
    have hc : e'.stem = e.stem := hcontra
    rw [hc] at hnp
    exact hnp hmem

/-- Witness for C10: a stray regular file `a.txt` in the output directory —
not an image, unrecognized extension — makes raw input `a.jpg` be skipped. -/
theorem processed_set_is_untyped_witness :
    "a" ∈ processedStems [⟨"a", ".txt", true⟩] ∧
    1 ≤ (process_all [⟨"a", ".jpg", true, true, true, true, 5, true, true⟩]
          [⟨"a", ".txt", true⟩]).skip ∧
    ∀ w ∈ (process_all [⟨"a", ".jpg", true, true, true, true, 5, true, true⟩]
          [⟨"a", ".txt", true⟩]).writes, w.stem ≠ "a" :=
  processed_set_is_untyped
    [⟨"a", ".jpg", true, true, true, true, 5, true, true⟩]
    [⟨"a", ".txt", true⟩]
    ⟨"a", ".jpg", true, true, true, true, 5, true, true⟩
    ⟨"a", ".txt", true⟩ (by decide) (by decide) rfl rfl

/-! ## C6: orphan cleanup -/

/-- C6: orphan cleanup deletes exactly the regular output files whose stem
matches no raw image stem (when their deletion succeeds), leaves every
output with a matching raw stem untouched, and attempts the deletion of
every orphan independently of other deletions failing. -/
theorem mem_cleanup {rawDir : List Entry} {outDir : List DirEntry}
    {deleteOk : DirEntry → Bool} {o : DirEntry} :
    o ∈ cleanup_orphaned_photos rawDir outDir deleteOk ↔
      o ∈ outDir ∧
        (o.isFile && !decide (o.stem ∈ rawStems rawDir) && deleteOk o) = false := by
  unfold cleanup_orphaned_photos
  simp only [List.mem_filter, Bool.not_eq_true']

theorem cleanup_orphans_spec (rawDir : List Entry) (outDir : List DirEntry)
    (deleteOk : DirEntry → Bool) :
    (∀ o ∈ outDir, o.isFile = true → o.stem ∈ rawStems rawDir →
      o ∈ cleanup_orphaned_photos rawDir outDir deleteOk) ∧
    (∀ o ∈ outDir, o ∉ cleanup_orphaned_photos rawDir outDir deleteOk →
      o.isFile = true ∧ o.stem ∉ rawStems rawDir) ∧
    (∀ o ∈ outDir, o.isFile = true → o.stem ∉ rawStems rawDir → deleteOk o = true →
      o ∉ cleanup_orphaned_photos rawDir outDir deleteOk) ∧
    (∀ o ∈ outDir, o.isFile = true → o.stem ∉ rawStems rawDir →
      o ∈ attemptedDeletions rawDir outDir) := by
  refine ⟨?_, ?_, ?_, ?_⟩
  · intro o ho hf hstem
    refine mem_cleanup.mpr ⟨ho, ?_⟩
    simp [hstem]
  · intro o ho hnot
    have hcontra : ¬ (o ∈ outDir ∧
        (o.isFile && !decide (o.stem ∈ rawStems rawDir) && deleteOk o) = false) :=
      fun h => hnot (mem_cleanup.mpr h)
    have hconj : (o.isFile && !decide (o.stem ∈ rawStems rawDir) && deleteOk o) = true := by
      rcases Bool.eq_false_or_eq_true
          (o.isFile && !decide (o.stem ∈ rawStems rawDir) && deleteOk o) with hb | hb
      · exact hb
      · exact absurd ⟨ho, hb⟩ hcontra
    simp only [Bool.and_eq_true, Bool.not_eq_true', decide_eq_false_iff_not] at hconj
    exact ⟨hconj.1.1, hconj.1.2⟩
  · intro o ho hf hstem hdel hmem
    have h2 := (mem_cleanup.mp hmem).2
    simp [hf, hstem, hdel] at h2
  · intro o ho hf hstem
    unfold attemptedDeletions
    refine List.mem_filter.mpr ⟨ho, ?_⟩
    simp [hf, hstem]

/-- Witness for C6: raw `a.jpg`; outputs `a.jpg` (kept), orphans `b.jpg`
(deletion fails, remains but attempted) and `c.jpg` (deleted). -/
theorem cleanup_orphans_spec_witness :
    cleanup_orphaned_photos
      [⟨"a", ".jpg", true, true, true, true, 5, true, true⟩]
      [⟨"a", ".jpg", true⟩, ⟨"b", ".jpg", true⟩, ⟨"c", ".jpg", true⟩]
      (fun o => o.stem != "b") = [⟨"a", ".jpg", true⟩, ⟨"b", ".jpg", true⟩] ∧
    attemptedDeletions
      [⟨"a", ".jpg", true, true, true, true, 5, true, true⟩]
      [⟨"a", ".jpg", true⟩, ⟨"b", ".jpg", true⟩, ⟨"c", ".jpg", true⟩] =
      [⟨"b", ".jpg", true⟩, ⟨"c", ".jpg", true⟩] ∧
    (⟨"a", ".jpg", true⟩ : DirEntry) ∈ cleanup_orphaned_photos
      [⟨"a", ".jpg", true, true, true, true, 5, true, true⟩]
      [⟨"a", ".jpg", true⟩, ⟨"b", ".jpg", true⟩, ⟨"c", ".jpg", true⟩]
      (fun o => o.stem != "b") ∧
    (⟨"c", ".jpg", true⟩ : DirEntry) ∉ cleanup_orphaned_photos
      [⟨"a", ".jpg", true, true, true, true, 5, true, true⟩]
      [⟨"a", ".jpg", true⟩, ⟨"b", ".jpg", true⟩, ⟨"c", ".jpg", true⟩]
      (fun o => o.stem != "b") ∧
    (⟨"b", ".jpg", true⟩ : DirEntry) ∈ attemptedDeletions
      [⟨"a", ".jpg", true, true, true, true, 5, true, true⟩]
      [⟨"a", ".jpg", true⟩, ⟨"b", ".jpg", true⟩, ⟨"c", ".jpg", true⟩] :=
  ⟨by decide, by decide,
   (cleanup_orphans_spec
      [⟨"a", ".jpg", true, true, true, true, 5, true, true⟩]
      [⟨"a", ".jpg", true⟩, ⟨"b", ".jpg", true⟩, ⟨"c", ".jpg", true⟩]
      (fun o => o.stem != "b")).1 ⟨"a", ".jpg", true⟩ (by decide) rfl (by decide),
   (cleanup_orphans_spec
      [⟨"a", ".jpg", true, true, true, true, 5, true, true⟩]
      [⟨"a", ".jpg", true⟩, ⟨"b", ".jpg", true⟩, ⟨"c", ".jpg", true⟩]
      (fun o => o.stem != "b")).2.2.1 ⟨"c", ".jpg", true⟩ (by decide) rfl (by decide) rfl,
   (cleanup_orphans_spec
      [⟨"a", ".jpg", true, true, true, true, 5, true, true⟩]
      [⟨"a", ".jpg", true⟩, ⟨"b", ".jpg", true⟩, ⟨"c", ".jpg", true⟩]
      (fun o => o.stem != "b")).2.2.2 ⟨"b", ".jpg", true⟩ (by decide) rfl (by decide)⟩

/-! ## C9: re-running the batch -/

/-- An output-directory entry whose stem matches a raw image stem survives
cleanup, whatever the deletion oracle does. -/
theorem kept_after_cleanup {rawDir : List Entry} {outDir : List DirEntry}
    {deleteOk : DirEntry → Bool} {o : DirEntry}
    (ho : o ∈ outDir) (hstem : o.stem ∈ rawStems rawDir) :
    o ∈ cleanup_orphaned_photos rawDir outDir deleteOk :=
  mem_cleanup.mpr ⟨ho, by simp [hstem]⟩

/-- A stem present in the processed set before the run and matching a raw
image stem is still present after the run. -/
theorem stem_kept_from_out0 {rawDir : List Entry} {outDir : List DirEntry}
    {deleteOk : DirEntry → Bool} {s : String}
    (h0 : s ∈ processedStems outDir) (hraw : s ∈ rawStems rawDir) :
    s ∈ processedStems (outDirAfterRun rawDir outDir deleteOk) := by
  obtain ⟨o, ho, hf, hs⟩ := mem_processedStems.mp h0
  refine mem_processedStems.mpr ⟨o, ?_, hf, hs⟩
  unfold outDirAfterRun
  exact kept_after_cleanup (List.mem_append_left _ ho) (hs ▸ hraw)

/-- The stem of a file written during the run and matching a raw image stem
is present in the processed set after the run. -/
theorem stem_kept_from_write {rawDir : List Entry} {outDir : List DirEntry}
    {deleteOk : DirEntry → Bool} {w : FileName}
    (hw : w ∈ (process_all rawDir outDir).writes) (hraw : w.stem ∈ rawStems rawDir) :
    w.stem ∈ processedStems (outDirAfterRun rawDir outDir deleteOk) := by
  have hmem : (⟨w.stem, w.ext, true⟩ : DirEntry) ∈
      writeEntries (process_all rawDir outDir).writes :=
    List.mem_map.mpr ⟨w, hw, rfl⟩
  refine mem_processedStems.mpr ⟨⟨w.stem, w.ext, true⟩, ?_, rfl, rfl⟩
  unfold outDirAfterRun
  exact kept_after_cleanup (List.mem_append_right _ hmem) hraw

/-- Every file written by a run has the stem of some discovered raw image. -/
theorem writes_stem_mem_rawStems {rawDir : List Entry} {outDir : List DirEntry}
    {w : FileName} (hw : w ∈ (process_all rawDir outDir).writes) :
    w.stem ∈ rawStems rawDir := by
  rw [process_all_eq] at hw
  simp only [List.mem_map, List.mem_filter, Bool.and_eq_true, Bool.not_eq_true',
    decide_eq_false_iff_not] at hw
  obtain ⟨e, ⟨he, _, _⟩, rfl⟩ := hw
  rw [outputFileName_stem]
  exact discoverImages_stem_mem_rawStems he

/-- Any stem in the processed set after a run was either there before the
run or was written during it. -/
theorem stem_after_run_cases {rawDir : List Entry} {outDir : List DirEntry}
    {deleteOk : DirEntry → Bool} {s : String}
    (h : s ∈ processedStems (outDirAfterRun rawDir outDir deleteOk)) :
    s ∈ processedStems outDir ∨ ∃ w ∈ (process_all rawDir outDir).writes, w.stem = s := by
  obtain ⟨o, ho, hf, hs⟩ := mem_processedStems.mp h
  have ho2 : o ∈ outDir ++ writeEntries (process_all rawDir outDir).writes :=
    (mem_cleanup.mp ho).1
  rcases List.mem_append.mp ho2 with h1 | h1
  · exact Or.inl (mem_processedStems.mpr ⟨o, h1, hf, hs⟩)
  · obtain ⟨w, hw, hwe⟩ := List.mem_map.mp h1
    refine Or.inr ⟨w, hw, ?_⟩
    rw [← hs, ← hwe]

/-- For a discovered input with pairwise-distinct raw stems, membership in
the after-run processed set is equivalent to having been skipped (stem in
the before-run set) or successfully processed. -/
theorem stem_after_run_iff {rawDir : List Entry} {outDir : List DirEntry}
    {deleteOk : DirEntry → Bool}
    (hnd : ((discoverImages rawDir).map fun e => e.stem).Nodup)
    {e : Entry} (he : e ∈ discoverImages rawDir) :
    e.stem ∈ processedStems (outDirAfterRun rawDir outDir deleteOk) ↔
      e.stem ∈ processedStems outDir ∨ processImage e = true := by
  constructor
  · intro h
    rcases stem_after_run_cases h with h0 | ⟨w, hw, hws⟩
    · exact Or.inl h0
    · rw [process_all_eq] at hw
      simp only [List.mem_map, List.mem_filter, Bool.and_eq_true, Bool.not_eq_true',
        decide_eq_false_iff_not] at hw
      obtain ⟨e', ⟨he', _, hok'⟩, rfl⟩ := hw
      rw [outputFileName_stem] at hws
      have hstem' : e'.stem = e.stem := hws
      have heq : e' = e := List.inj_on_of_nodup_map hnd he' he hstem'
      rw [heq] at hok'
      exact Or.inr hok'
  · intro h
    rcases h with h0 | hok
    · exact stem_kept_from_out0 h0 (discoverImages_stem_mem_rawStems he)
    · by_cases h0 : e.stem ∈ processedStems outDir
      · exact stem_kept_from_out0 h0 (discoverImages_stem_mem_rawStems he)
      · have hw : outputFileName ⟨e.stem, e.ext⟩ ∈ (process_all rawDir outDir).writes := by
          rw [process_all_eq]
          exact List.mem_map.mpr ⟨e, List.mem_filter.mpr ⟨he, by simp [h0, hok]⟩, rfl⟩
        have hk := @stem_kept_from_write rawDir outDir deleteOk _ hw
          (by rw [outputFileName_stem]; exact discoverImages_stem_mem_rawStems he)
        rw [outputFileName_stem] at hk
        exact hk

/-- C9 counterexample: raw `a.jpg` whose output already exists before the
first run.  The first run succeeds on 0 files; the second run skips 1, so
the second run's skip count (1) differs from the first run's success count
(0) — though it does produce zero new outputs. -/
theorem rerun_skip_count_counterexample :
    (process_all [⟨"a", ".jpg", true, true, true, true, 5, true, true⟩]
        [⟨"a", ".jpg", true⟩]).success = 0 ∧
    (process_all [⟨"a", ".jpg", true, true, true, true, 5, true, true⟩]
        (outDirAfterRun [⟨"a", ".jpg", true, true, true, true, 5, true, true⟩]
          [⟨"a", ".jpg", true⟩] fun _ => true)).writes = [] ∧
    (process_all [⟨"a", ".jpg", true, true, true, true, 5, true, true⟩]
        (outDirAfterRun [⟨"a", ".jpg", true, true, true, true, 5, true, true⟩]
          [⟨"a", ".jpg", true⟩] fun _ => true)).skip = 1 := by
  decide

/-- C9 amended: re-running the batch over an unchanged raw directory, with
the output directory as left by the first run, produces zero new output
files; when the discovered raw inputs have pairwise-distinct stems, the
second run's skip count equals the first run's success count PLUS the
first run's skip count (hence equals the success count exactly when the
first run skipped nothing, e.g. on an initially empty output directory). -/
theorem rerun_no_new_outputs (rawDir : List Entry) (outDir : List DirEntry)
    (deleteOk : DirEntry → Bool)
    (hnd : ((discoverImages rawDir).map fun e => e.stem).Nodup) :
    (process_all rawDir (outDirAfterRun rawDir outDir deleteOk)).writes = [] ∧
    (process_all rawDir (outDirAfterRun rawDir outDir deleteOk)).skip =
      (process_all rawDir outDir).success + (process_all rawDir outDir).skip := by
  have hpt : ∀ e ∈ discoverImages rawDir,
      (e.stem ∈ processedStems (outDirAfterRun rawDir outDir deleteOk) ↔
        e.stem ∈ processedStems outDir ∨ processImage e = true) :=
    fun e he => stem_after_run_iff hnd he
  constructor
  · rw [process_all_eq]
    show ((discoverImages rawDir).filter fun e =>
        !decide (e.stem ∈ processedStems (outDirAfterRun rawDir outDir deleteOk)) &&
          processImage e).map (fun e => outputFileName ⟨e.stem, e.ext⟩) = []
    have hnil : ((discoverImages rawDir).filter fun e =>
        !decide (e.stem ∈ processedStems (outDirAfterRun rawDir outDir deleteOk)) &&
          processImage e) = [] := by
      rw [List.filter_eq_nil_iff]
      intro e he hconj
      simp only [Bool.and_eq_true, Bool.not_eq_true', decide_eq_false_iff_not] at hconj
      exact hconj.1 ((hpt e he).mpr (Or.inr hconj.2))
    rw [hnil]
    rfl
  · rw [process_all_eq, process_all_eq]
    show ((discoverImages rawDir).filter fun e =>
        decide (e.stem ∈ processedStems (outDirAfterRun rawDir outDir deleteOk))).length =
      ((discoverImages rawDir).filter fun e =>
        !decide (e.stem ∈ processedStems outDir) && processImage e).length +
      ((discoverImages rawDir).filter fun e =>
        decide (e.stem ∈ processedStems outDir)).length
    have hcong : ((discoverImages rawDir).filter fun e =>
        decide (e.stem ∈ processedStems (outDirAfterRun rawDir outDir deleteOk))) =
        ((discoverImages rawDir).filter fun e =>
          decide (e.stem ∈ processedStems outDir) || processImage e) := by
      refine List.filter_congr fun e he => ?_
      have h := hpt e he
      by_cases h0 : e.stem ∈ processedStems outDir
      · simp [h0, h.mpr (Or.inl h0)]
      · by_cases hok : processImage e = true
        · simp [h0, hok, h.mpr (Or.inr hok)]
        · have hnot : ¬ e.stem ∈ processedStems (outDirAfterRun rawDir outDir deleteOk) := by
            intro hc
            rcases h.mp hc with hh | hh
            · exact h0 hh
            · exact hok hh
          simp [h0, hok, hnot]
    rw [hcong, length_filter_or (discoverImages rawDir)
      (fun e => decide (e.stem ∈ processedStems outDir)) (fun e => processImage e)]
    omega

/-- Witness for the amended C9: raw `a.jpg` (processes) and `b.jpg`
(zero-sized, fails); output starts with the orphan `c.jpg`.  Run 1:
1 success, 0 skips, orphan removed; run 2: no writes, 1 skip = 1 + 0. -/
theorem rerun_no_new_outputs_witness :
    (((discoverImages
        [⟨"a", ".jpg", true, true, true, true, 5, true, true⟩,
         ⟨"b", ".jpg", true, true, true, true, 0, true, true⟩]).map fun e => e.stem).Nodup) ∧
    (process_all
        [⟨"a", ".jpg", true, true, true, true, 5, true, true⟩,
         ⟨"b", ".jpg", true, true, true, true, 0, true, true⟩]
        [⟨"c", ".jpg", true⟩]).success = 1 ∧
    (process_all
        [⟨"a", ".jpg", true, true, true, true, 5, true, true⟩,
         ⟨"b", ".jpg", true, true, true, true, 0, true, true⟩]
        [⟨"c", ".jpg", true⟩]).skip = 0 ∧
    ((process_all
        [⟨"a", ".jpg", true, true, true, true, 5, true, true⟩,
         ⟨"b", ".jpg", true, true, true, true, 0, true, true⟩]
        (outDirAfterRun
          [⟨"a", ".jpg", true, true, true, true, 5, true, true⟩,
           ⟨"b", ".jpg", true, true, true, true, 0, true, true⟩]
          [⟨"c", ".jpg", true⟩] fun _ => true)).writes = [] ∧
     (process_all
        [⟨"a", ".jpg", true, true, true, true, 5, true, true⟩,
         ⟨"b", ".jpg", true, true, true, true, 0, true, true⟩]
        (outDirAfterRun
          [⟨"a", ".jpg", true, true, true, true, 5, true, true⟩,
           ⟨"b", ".jpg", true, true, true, true, 0, true, true⟩]
          [⟨"c", ".jpg", true⟩] fun _ => true)).skip =
       (process_all
          [⟨"a", ".jpg", true, true, true, true, 5, true, true⟩,
           ⟨"b", ".jpg", true, true, true, true, 0, true, true⟩]
          [⟨"c", ".jpg", true⟩]).success +
       (process_all
          [⟨"a", ".jpg", true, true, true, true, 5, true, true⟩,
           ⟨"b", ".jpg", true, true, true, true, 0, true, true⟩]
          [⟨"c", ".jpg", true⟩]).skip) :=
  ⟨by decide, by decide, by decide,
   rerun_no_new_outputs
     [⟨"a", ".jpg", true, true, true, true, 5, true, true⟩,
      ⟨"b", ".jpg", true, true, true, true, 0, true, true⟩]
     [⟨"c", ".jpg", true⟩] (fun _ => true) (by decide)⟩

end PhotoFrame
